import Mathlib

/-! VCFData table writer and readers.

A shallow embedding of `src/VCFData.cpp`: the table writer `VCFData::writeTable`,
the two readers `VCFData::readTable` and `readPlinkTable`, and the export
`VCFData::writeRawData` with its four writers, followed by theorems about them.

Conventions of the embedding.

* A pointer argument that the code tests against null is an `Option`.
* The cells of a `Matrix` are rationals: every finite `double` is one.  NaN and
  the infinities are not represented.
* A file is the text written to it; the diagnostic channel (`stderr`) is the
  list of the messages written to it, in order.
* The input of a reader is the sequence of token vectors that the successive
  calls of `LineReader::readLineBySep` deliver before the end of the input.
* A `for` loop over an index is `forLoop`; the loop over the input lines is a
  fold over that sequence; an access outside a vector or a matrix, undefined in
  the source, makes the reader's result `none`.
* A `std::string` may hold NUL characters; handed over through `c_str()` it
  ends at its first NUL, which is `cStr`. A `const char*` argument (`fn`,
  `upperLeftName`, `prefix`) is the text before its terminating NUL.
* A function that only calls `writeTable` is the call it makes, a `TableWrite`:
  the arguments of the call, whose effect is `writeTable` run on them.
* Line counters and sizes are far below `2^31` for any input that fits in
  memory, so they are unbounded integers here.
-/

namespace VCFData

/-! ## External collaborators -/

/-- Modelled from the spec: the Ordered Label Map `OrderedMap<std::string, int>`,
whose header is absent from the sources. The entries are kept in insertion
order; `size`, `keyAt`, `find` and assignment through `operator[]` are the
operations the code uses. -/
structure OrderedMap where
  entries : List (String × Int)
  deriving DecidableEq, Repr

namespace OrderedMap

/-- The map with no label. -/
def empty : OrderedMap := ⟨[]⟩

/-- Modelled from the spec: `size()`, the number of labels. -/
def size (m : OrderedMap) : Nat := m.entries.length

/-- Modelled from the spec: `keyAt(i)`, the label at position `i` of the
insertion order (the code calls it below `size()` only). -/
def keyAt (m : OrderedMap) (i : Nat) : String := (m.entries.getD i ("", 0)).1

/-- Modelled from the spec: `find(key)`, whether the label is present. -/
def find (m : OrderedMap) (key : String) : Bool := m.entries.any (fun e => e.1 == key)

/-- The value a label is mapped to, when it is present. -/
def value? (m : OrderedMap) (key : String) : Option Int :=
  (m.entries.find? (fun e => e.1 == key)).map Prod.snd

/-- Replaces the value of `key` in a list of entries. -/
def replace (key : String) (v : Int) : List (String × Int) → List (String × Int)
  | [] => []
  | e :: es => if e.1 == key then (key, v) :: es else e :: replace key v es

/-- Modelled from the spec: `m[key] = v`. A new label is appended at the end of
the insertion order; an existing label keeps its position and has its value
overwritten. -/
def assign (m : OrderedMap) (key : String) (v : Int) : OrderedMap :=
  if m.find key then ⟨replace key v m.entries⟩ else ⟨m.entries ++ [(key, v)]⟩

/-- The labels, in insertion order. -/
def keys (m : OrderedMap) : List String := m.entries.map Prod.fst

end OrderedMap

/-- Modelled from the spec: the Numeric Matrix `Matrix`, whose header is absent
from the sources: `rows`, `cols` and the cells, addressed by (row, column). -/
structure Matrix where
  rows : Nat
  cols : Nat
  data : List (List Rat)
  deriving DecidableEq, Repr

namespace Matrix

/-- Modelled from the spec: the read access `(*data)[r][c]`. -/
def get (m : Matrix) (r c : Nat) : Rat := (m.data.getD r []).getD c 0

/-- Modelled from the spec: `Dimension(rows, cols)`, which resizes the matrix,
keeps the cells that stay inside it and zero-fills the new ones. -/
def Dimension (m : Matrix) (rows cols : Nat) : Matrix :=
  { rows := rows
    cols := cols
    data := (List.range rows).map (fun r => (List.range cols).map (fun c =>
      if r < m.rows ∧ c < m.cols then m.get r c else 0)) }

/-- Modelled from the spec: the write access `(*data)[r][c] = v`. Outside the
matrix it is undefined in the source: `none`. -/
def set (m : Matrix) (r c : Nat) (v : Rat) : Option Matrix :=
  if r < m.rows ∧ c < m.cols then
    some { m with data := m.data.modify (fun row => row.set c v) r }
  else none

end Matrix

/-- The index loop `for (int i = lo; i < hi; i++) body(i)`, with `k` iterations
left to run from index `i`. -/
def forLoopAux {σ : Type} (body : Nat → σ → σ) : Nat → Nat → σ → σ
  | 0, _, s => s
  | k + 1, i, s => forLoopAux body k (i + 1) (body i s)

/-- The index loop `for (int i = lo; i < hi; i++) body(i)`. -/
def forLoop {σ : Type} (lo hi : Nat) (body : Nat → σ → σ) (s : σ) : σ :=
  forLoopAux body (hi - lo) lo s

/-- The conversion `(int) v` of a stored `double`: the fractional part is
discarded (truncation toward zero). Outside the range of a 32-bit `int` the
conversion is undefined in C++; the model gives the value x86-64 produces
there, `INT_MIN`. -/
def castInt (v : Rat) : Int :=
  let t := Int.tdiv v.num v.den
  if -2147483648 ≤ t ∧ t ≤ 2147483647 then t else -2147483648

/-- The call `s.c_str()` handed to a function that takes a `const char*`: the
characters of `s` before its first NUL, all of `s` when it holds none. -/
def cStr (s : String) : String := ⟨s.data.takeWhile (fun ch => ch != '\x00')⟩

/-! ## The table writer -/

/-- The `FileWriter`: the path it was opened on and the text written so far. -/
structure FileWriter where
  fn : String
  text : String
  deriving DecidableEq, Repr

namespace FileWriter

/-- The call `FileWriter fw(fn)`: the file is created, empty. -/
def create (fn : String) : FileWriter := ⟨fn, ""⟩

/-- The call `fw.write(s)`. -/
def write (fw : FileWriter) (s : String) : FileWriter := { fw with text := fw.text ++ s }

/-- The call `fw.printf("\t%d", n)`. -/
def printfTabInt (fw : FileWriter) (n : Int) : FileWriter := fw.write ("\t" ++ toString n)

end FileWriter

/-- What a call of `writeTable` leaves behind: the file it wrote (`none` when
it opened none) and the messages it sent to `stderr`. -/
structure WriteEffect where
  file : Option FileWriter
  stderr : List String
  deriving DecidableEq, Repr

/-- The function `VCFData::writeTable` (lines 43-85). -/
def writeTable (fn : String) (data : Option Matrix) (rowName colName : OrderedMap)
    (upperLeftName : String) : WriteEffect :=
  match data with
  | none => ⟨none, []⟩
  | some d =>
    if d.rows = 0 ∨ d.cols = 0 then ⟨none, []⟩
    else if rowName.size ≠ d.rows then ⟨none, ["Row number does not match!"]⟩
    else if colName.size ≠ d.cols then ⟨none, ["Col number does not match!"]⟩
    else
      let fw := FileWriter.create fn
      -- header
      let fw := fw.write upperLeftName
      let fw := forLoop 0 colName.size (fun i fw =>
        let fw := fw.write "\t"
        if colName.size = 0 then
          fw.write "\".\""
        else
          let fw := fw.write "\""
          let fw := fw.write (cStr (colName.keyAt i))
          fw.write "\"") fw
      let fw := fw.write "\n"
      -- content
      let numCol := colName.size
      let numRow := rowName.size
      let fw := forLoop 0 numRow (fun r fw =>
        let fw := fw.write (cStr (rowName.keyAt r))
        let fw := forLoop 0 numCol (fun c fw => fw.printfTabInt (castInt (d.get r c))) fw
        fw.write "\n") fw
      ⟨some fw, []⟩

/-- The table of the worked example: `[[1,2],[3,4]]`. -/
def exampleMatrix : Matrix := ⟨2, 2, [[1, 2], [3, 4]]⟩

/-- The row labels of the worked example. -/
def exampleRows : OrderedMap := ⟨[("S1", 0), ("S2", 1)]⟩

/-- The column labels of the worked example. -/
def exampleCols : OrderedMap := ⟨[("M1", 0), ("M2", 1)]⟩

/-! ## The table readers -/

/-- The index loop `for (int i = lo; i < hi; i++) body(i)` whose body may leave
defined behaviour, with `k` iterations left to run from index `i`. -/
def forLoopAuxM {σ : Type} (body : Nat → σ → Option σ) : Nat → Nat → σ → Option σ
  | 0, _, s => some s
  | k + 1, i, s => (body i s).bind (forLoopAuxM body k (i + 1))

/-- The index loop `for (int i = lo; i < hi; i++) body(i)` whose body may leave
defined behaviour. -/
def forLoopM {σ : Type} (lo hi : Nat) (body : Nat → σ → Option σ) (s : σ) : Option σ :=
  forLoopAuxM body (hi - lo) lo s

/-- The objects a reader works on and its local variables: the matrix and the
label maps it was handed, `header`, `lineNo`, `nCol`, `invalidConversion`, the
messages sent to `stderr` and the number of lines taken from the input. -/
structure ReadState where
  data : Matrix
  rowName : OrderedMap
  colName : OrderedMap
  header : List String
  lineNo : Int
  nCol : Int
  invalidConversion : Int
  stderr : List String
  linesRead : Nat
  deriving DecidableEq, Repr

/-- What a call of a reader leaves behind: the returned value, the objects
behind its pointer arguments, the messages sent to `stderr` and the number of
lines taken from the input. -/
structure ReadResult where
  ret : Int
  data : Option Matrix
  rowName : OrderedMap
  colName : OrderedMap
  upperLeftName : Option String
  stderr : List String
  linesRead : Nat
  deriving DecidableEq, Repr

/-- The statement `if (!str2double(fd[col].c_str(), &(*data)[row][col])) {
(*data)[row][col] = defaultValue; invalidConversion++; }` of both readers.
The conversion `str2double`, defined outside the sources, is a parameter: it
gives the number a token stands for, or `none` when the token is not numeric. -/
def storeToken (str2double : String → Option Rat) (defaultValue : Rat) (fd : List String)
    (row col : Nat) (s : ReadState) : Option ReadState :=
  match str2double (cStr (fd.getD col "")) with
  | some v => (s.data.set row col v).map (fun d => { s with data := d })
  | none =>
    (s.data.set row col defaultValue).map (fun d =>
      { s with data := d, invalidConversion := s.invalidConversion + 1 })

/-- The message of both readers for a line with an unexpected token count. -/
def inconsistentMsg (lineNo : Int) : String :=
  "Inconsistent column number at line " ++ toString lineNo ++ ", skipping...\n"

/-- One run of the body of the `while` loop of `VCFData::readTable`
(lines 108-143) on the tokens `fd` of the line just read. -/
def readTableLine (str2double : String → Option Rat) (defaultValue : Rat)
    (s : ReadState) (fd : List String) : Option ReadState :=
  let s : ReadState := { s with linesRead := s.linesRead + 1 }
  if s.lineNo = 0 then
    -- header = fd; continue;
    some { s with header := fd }
  else
    let s : ReadState :=
      if s.lineNo = 1 then
        let s : ReadState := { s with nCol := fd.length }
        if fd.length = s.header.length then
          -- first column have header
          forLoop 1 s.header.length (fun r (s : ReadState) =>
            { s with rowName := s.rowName.assign (s.header.getD r "") ((r : Int) - 1) }) s
        else
          -- first column does not have header
          forLoop 0 s.header.length (fun r (s : ReadState) =>
            { s with rowName := s.rowName.assign (s.header.getD r "") (r : Int) }) s
      else s
    if (fd.length : Int) ≠ s.nCol then
      -- continue;
      some { s with stderr := s.stderr ++ [inconsistentMsg s.lineNo] }
    else
      let row : Int := s.lineNo - 1
      let s : ReadState := { s with data := s.data.Dimension s.lineNo.toNat (s.nCol - 1).toNat }
      match fd.get? 0 with
      | none => none
      | some label =>
        let s : ReadState := { s with rowName := s.rowName.assign label row }
        (forLoopM 1 s.nCol.toNat (storeToken str2double defaultValue fd row.toNat) s).map
          (fun (s : ReadState) => { s with lineNo := s.lineNo + 1 })

/-- The function `VCFData::readTable` (lines 94-145), on the lines `input` of
the file `fn`. -/
def readTable (str2double : String → Option Rat) (input : List (List String))
    (data : Option Matrix) (rowName colName : OrderedMap) (upperLeftName : Option String)
    (defaultValue : Rat) : Option ReadResult :=
  match data, upperLeftName with
  | some d, some u =>
    if d.rows = 0 ∨ d.cols = 0 then
      some ⟨-1, data, rowName, colName, upperLeftName, [], 0⟩
    else
      (input.foldlM (readTableLine str2double defaultValue)
          ⟨d, rowName, colName, [], 0, -1, 0, [], 0⟩).map
        (fun s => ⟨s.invalidConversion, some s.data, s.rowName, s.colName, some u,
          s.stderr, s.linesRead⟩)
  | _, _ => some ⟨-1, data, rowName, colName, upperLeftName, [], 0⟩

/-- One run of the body of the `while` loop of `readPlinkTable` (lines 160-185)
on the tokens `fd` of the line just read. -/
def readPlinkTableLine (str2double : String → Option Rat) (defaultValue : Rat)
    (s : ReadState) (fd : List String) : Option ReadState :=
  let s : ReadState := { s with linesRead := s.linesRead + 1 }
  if s.lineNo = 0 then
    let s : ReadState := { s with nCol := fd.length }
    -- skip first 2 column
    let s : ReadState := forLoop 2 fd.length (fun r (s : ReadState) =>
      { s with rowName := s.rowName.assign (fd.getD r "") ((r : Int) - 1) }) s
    -- continue;
    some s
  else if (fd.length : Int) ≠ s.nCol then
    -- continue;
    some { s with stderr := s.stderr ++ [inconsistentMsg s.lineNo] }
  else
    let row : Int := s.lineNo - 1
    let s : ReadState := { s with data := s.data.Dimension s.lineNo.toNat (s.nCol - 1).toNat }
    match fd.get? 1 with
    | none => none
    | some label =>
      let s : ReadState :=
        if s.rowName.find label then
          { s with stderr := s.stderr ++ ["Duplicate sample: " ++ cStr label ++ "\n"] }
        else s
      let s : ReadState := { s with rowName := s.rowName.assign label row }
      (forLoopM 2 s.nCol.toNat (storeToken str2double defaultValue fd row.toNat) s).map
        (fun (s : ReadState) => { s with lineNo := s.lineNo + 1 })

/-- The function `readPlinkTable` (lines 147-187), on the lines `input` of the
file `fn`. It has no `upperLeftName`: that field of the result is `none`. -/
def readPlinkTable (str2double : String → Option Rat) (input : List (List String))
    (data : Option Matrix) (rowName colName : OrderedMap) (defaultValue : Rat) :
    Option ReadResult :=
  match data with
  | none => some ⟨-1, data, rowName, colName, none, [], 0⟩
  | some d =>
    if d.rows = 0 ∨ d.cols = 0 then
      some ⟨-1, data, rowName, colName, none, [], 0⟩
    else
      (input.foldlM (readPlinkTableLine str2double defaultValue)
          ⟨d, rowName, colName, [], 0, -1, 0, [], 0⟩).map
        (fun s => ⟨s.invalidConversion, some s.data, s.rowName, s.colName, none,
          s.stderr, s.linesRead⟩)

/-- The row-label map after the header loop of `readPlinkTable` has run on the
tokens `fd`: every token at a position `r ≥ 2` is assigned `r - 1`. -/
def plinkHeaderLabels (fd : List String) (rowName : OrderedMap) : OrderedMap :=
  forLoop 2 fd.length (fun r m => m.assign (fd.getD r "") ((r : Int) - 1)) rowName

/-- A sample conversion: a token that is a decimal integer is numeric, any
other token is not. -/
def str2doubleInt (tok : String) : Option Rat := tok.toInt?.map (fun n => (n : Rat))

/-- A fresh one-by-one matrix holding zero, for the readers to fill. -/
def freshMatrix : Matrix := ⟨1, 1, [[0]]⟩

/-! ### The text of a table, as the specification words it -/

/-- The strings of a list, one after the other. -/
def concatAll : List String → String
  | [] => ""
  | s :: rest => s ++ concatAll rest

/-- The specification's header line: the upper-left name, then for each column
index in order a tab and the column's label in double quotes, then a newline.
A label is written as a C string, that is up to its first NUL. -/
def specHeaderLine (cols : Nat) (colName : OrderedMap) (upperLeftName : String) : String :=
  upperLeftName
    ++ concatAll ((List.range cols).map (fun c => "\t\"" ++ cStr (colName.keyAt c) ++ "\""))
    ++ "\n"

/-- The data line of row `r` of a table whose cell `(r, c)` is written as the
integer `cellInt r c`: the row's label, unquoted and up to its first NUL, then
for each column a tab and the decimal integer of the cell, then a newline. -/
def intDataLine (cellInt : Nat → Nat → Int) (cols : Nat) (rowName : OrderedMap) (r : Nat) :
    String :=
  cStr (rowName.keyAt r)
    ++ concatAll ((List.range cols).map (fun c => "\t" ++ toString (cellInt r c)))
    ++ "\n"

/-- The text of a table whose cell `(r, c)` is written as the integer
`cellInt r c`: the header line, then the data lines in row order. -/
def intTableText (cellInt : Nat → Nat → Int) (d : Matrix) (rowName colName : OrderedMap)
    (upperLeftName : String) : String :=
  specHeaderLine d.cols colName upperLeftName
    ++ concatAll ((List.range d.rows).map (fun r => intDataLine cellInt d.cols rowName r))

/-- The specification's data line of row `r`: the row's label, unquoted and up
to its first NUL, then for each column a tab and the decimal integer of the
cell, then a newline. -/
def specDataLine (d : Matrix) (rowName : OrderedMap) (r : Nat) : String :=
  cStr (rowName.keyAt r)
    ++ concatAll ((List.range d.cols).map (fun c => "\t" ++ toString (castInt (d.get r c))))
    ++ "\n"

/-- The specification's text of a table: the header line, then the data lines
in row order. -/
def specTableText (d : Matrix) (rowName colName : OrderedMap) (upperLeftName : String) : String :=
  specHeaderLine d.cols colName upperLeftName
    ++ concatAll ((List.range d.rows).map (fun r => specDataLine d rowName r))

/-! ## The export of the four tables -/

/-- The members of the class `VCFData` that the export functions refer to
through `this`, under the names the code gives them (the declaration of the
class is absent from the sources). -/
structure VCFDataObject where
  genotype : Option Matrix
  collapsedGenotype : Option Matrix
  covariate : Option Matrix
  phenotype : Option Matrix
  marker2Idx : OrderedMap
  people2Idx : OrderedMap
  set2Idx : OrderedMap
  covariate2Idx : OrderedMap
  phenotype2Idx : OrderedMap
  deriving DecidableEq, Repr

/-- A call of `writeTable`: its five arguments, in the order of the source. -/
structure TableWrite where
  fn : String
  data : Option Matrix
  rowName : OrderedMap
  colName : OrderedMap
  upperLeftName : String
  deriving DecidableEq, Repr

/-- What the call leaves behind: `writeTable` run on its arguments. -/
def TableWrite.effect (c : TableWrite) : WriteEffect :=
  writeTable c.fn c.data c.rowName c.colName c.upperLeftName

/-- The function `VCFData::writeGenotype` (lines 23-25): the call of
`writeTable` it makes. -/
def writeGenotype (self : VCFDataObject) (fn : String) : TableWrite :=
  ⟨fn, self.genotype, self.marker2Idx, self.people2Idx, "MarkerName"⟩

/-- The function `VCFData::writeCollapsedGenotype` (lines 26-28): the call of
`writeTable` it makes. -/
def writeCollapsedGenotype (self : VCFDataObject) (fn : String) : TableWrite :=
  ⟨fn, self.collapsedGenotype, self.people2Idx, self.set2Idx, "PeopleID"⟩

/-- The function `VCFData::writeCovariate` (lines 33-35): the call of
`writeTable` it makes. -/
def writeCovariate (self : VCFDataObject) (fn : String) : TableWrite :=
  ⟨fn, self.covariate, self.people2Idx, self.covariate2Idx, "PeopleID"⟩

/-- The function `VCFData::writePhenotype` (lines 36-38): the call of
`writeTable` it makes. -/
def writePhenotype (self : VCFDataObject) (fn : String) : TableWrite :=
  ⟨fn, self.phenotype, self.people2Idx, self.phenotype2Idx, "PeopleID"⟩

/-- The function `VCFData::writeRawData` (lines 8-17): the calls of `writeTable`
it makes, in order. The argument `pre` is the source's `prefix`. -/
def writeRawData (self : VCFDataObject) (pre : String) : List TableWrite :=
  let p := pre
  let p := if p = "" then "rvtest.raw" else p
  [ writeGenotype self (p ++ ".geno"),
    writeCollapsedGenotype self (p ++ ".cgeno"),
    writeCovariate self (p ++ ".cov"),
    writePhenotype self (p ++ ".pheno") ]

/-- A data set of two people, `P1` and `P2`, and three markers, `M1`, `M2` and
`M3`, whose genotype matrix is people by marker as the comment above
`writeGenotype` has it; the other three tables are absent. -/
def exampleData : VCFDataObject :=
  { genotype := some ⟨2, 3, [[0, 1, 2], [2, 1, 0]]⟩
    collapsedGenotype := none
    covariate := none
    phenotype := none
    marker2Idx := ⟨[("M1", 0), ("M2", 1), ("M3", 2)]⟩
    people2Idx := ⟨[("P1", 0), ("P2", 1)]⟩
    set2Idx := .empty
    covariate2Idx := .empty
    phenotype2Idx := .empty }

/-- The same two people with two markers only, so that the genotype matrix is
square. -/
def exampleSquareData : VCFDataObject :=
  { exampleData with
    genotype := some ⟨2, 2, [[0, 1], [2, 1]]⟩
    marker2Idx := ⟨[("M1", 0), ("M2", 1)]⟩ }

/-! ### Further wordings of the specification -/

/-- The specification's truncation: the fractional part of `v` is discarded,
so the result is the integer next to `v` on the side of zero. -/
def truncTowardZero (v : Rat) : Int := if 0 ≤ v then Int.floor v else Int.ceil v

/-- Whether `v` lies within the range of a 32-bit `int`. -/
def inIntRange (v : Rat) : Prop := -2147483648 ≤ v ∧ v ≤ 2147483647

instance (v : Rat) : Decidable (inIntRange v) :=
  inferInstanceAs (Decidable (-2147483648 ≤ v ∧ v ≤ 2147483647))

/-- Assigns to each token of `toks` its position less one, the first of them
standing at position `r`. -/
def assignFrom : Nat → List String → OrderedMap → OrderedMap
  | _, [], m => m
  | r, tok :: rest, m => assignFrom (r + 1) rest (m.assign tok ((r : Int) - 1))

/-- The row-label map after every line of `input`, in order, has had each of
its tokens at a position `r ≥ 2` assigned the value `r - 1`. -/
def assignLabelsFromSecond (input : List (List String)) (rowName : OrderedMap) : OrderedMap :=
  input.foldl (fun m fd => assignFrom 2 (fd.drop 2) m) rowName

/-- A string that holds neither a tab nor a newline. -/
def noTabNewline (s : String) : Prop := '\t' ∉ s.data ∧ '\n' ∉ s.data

instance (s : String) : Decidable (noTabNewline s) :=
  inferInstanceAs (Decidable ('\t' ∉ s.data ∧ '\n' ∉ s.data))

/-! ## Lemmas on the writer -/

theorem FileWriter.write_write (fw : FileWriter) (a b : String) :
    (fw.write a).write b = fw.write (a ++ b) := by
  simp [FileWriter.write, String.append_assoc]

theorem FileWriter.write_empty (fw : FileWriter) : fw.write "" = fw := by
  simp [FileWriter.write]

/-- A loop whose body writes one string per index writes their concatenation. -/
theorem forLoopAux_write (f : Nat → String) (k i : Nat) (fw : FileWriter) :
    forLoopAux (fun j w => w.write (f j)) k i fw
      = fw.write (concatAll ((List.range' i k).map f)) := by
  induction k generalizing i fw with
  | zero => simp [forLoopAux, concatAll, FileWriter.write_empty]
  | succ k ih =>
    simp [forLoopAux, ih, List.range'_succ, concatAll, FileWriter.write_write]

theorem forLoop_write (f : Nat → String) (n : Nat) (fw : FileWriter) :
    forLoop 0 n (fun j w => w.write (f j)) fw
      = fw.write (concatAll ((List.range n).map f)) := by
  simp [forLoop, forLoopAux_write, List.range_eq_range']

/-- The text `writeTable` leaves in the file once its four guards are passed. -/
theorem writeTable_ok (fn : String) (d : Matrix) (rowName colName : OrderedMap)
    (upperLeftName : String) (hr : 0 < d.rows) (hc : 0 < d.cols)
    (hrow : rowName.size = d.rows) (hcol : colName.size = d.cols) :
    writeTable fn (some d) rowName colName upperLeftName
      = ⟨some ⟨fn, specTableText d rowName colName upperLeftName⟩, []⟩ := by
  have hr0 : d.rows ≠ 0 := Nat.pos_iff_ne_zero.mp hr
  have hc0 : d.cols ≠ 0 := Nat.pos_iff_ne_zero.mp hc
  simp only [writeTable, hrow, hcol, hr0, hc0, or_self, if_false, ne_eq, not_true_eq_false,
    FileWriter.printfTabInt, FileWriter.write_write, forLoop_write]
  simp [FileWriter.write, FileWriter.create, specTableText, specHeaderLine, specDataLine,
    String.append_assoc]

/-- A string that holds no NUL is its own C string. -/
theorem cStr_of_no_nul (s : String) (h : '\x00' ∉ s.data) : cStr s = s := by
  have key : ∀ l : List Char, '\x00' ∉ l → l.takeWhile (fun ch => ch != '\x00') = l := by
    intro l hl
    induction l with
    | nil => rfl
    | cons a rest ih =>
      have ha : a ≠ '\x00' := fun e => hl (e ▸ List.mem_cons_self _ _)
      have hrest : '\x00' ∉ rest := fun hm => hl (List.mem_cons_of_mem _ hm)
      simp [List.takeWhile_cons, ha, ih hrest]
  unfold cStr
  rw [key s.data h]

/-- Every character of a C string is a character of the string it is cut from. -/
theorem mem_of_mem_cStr (s : String) (ch : Char) (h : ch ∈ (cStr s).data) : ch ∈ s.data := by
  have key : ∀ l : List Char, ch ∈ l.takeWhile (fun x => x != '\x00') → ch ∈ l := by
    intro l
    induction l with
    | nil => simp
    | cons a rest ih =>
      intro hm
      by_cases ha : a = '\x00'
      · simp [List.takeWhile_cons, ha] at hm
      · simp only [List.takeWhile_cons, bne_iff_ne, ne_eq, ha, not_false_eq_true, decide_True,
          if_true, List.mem_cons] at hm
        rcases hm with rfl | hm
        · exact List.mem_cons_self _ _
        · exact List.mem_cons_of_mem _ (ih hm)
  exact key s.data h

/-- The text of the specification is the text whose cells are written through
the cast. -/
theorem specTableText_eq_intTableText (d : Matrix) (rowName colName : OrderedMap)
    (upperLeftName : String) :
    specTableText d rowName colName upperLeftName
      = intTableText (fun r c => castInt (d.get r c)) d rowName colName upperLeftName := rfl

/-- Two ways of writing the cells that agree on every cell of the matrix give
the same text. -/
theorem intTableText_congr (f g : Nat → Nat → Int) (d : Matrix) (rowName colName : OrderedMap)
    (upperLeftName : String) (h : ∀ r c, r < d.rows → c < d.cols → f r c = g r c) :
    intTableText f d rowName colName upperLeftName
      = intTableText g d rowName colName upperLeftName := by
  unfold intTableText
  congr 2
  apply List.map_congr_left
  intro r hr
  unfold intDataLine
  congr 3
  apply List.map_congr_left
  intro c hc
  rw [h r c (List.mem_range.mp hr) (List.mem_range.mp hc)]

/-! ## Lemmas on the readers -/

/-- With `lineNo` at zero the body of the loop of `readTable` stores the line
as the header and leaves `lineNo` at zero. -/
theorem readTableLine_zero (str2double : String → Option Rat) (defaultValue : Rat)
    (s : ReadState) (fd : List String) (h : s.lineNo = 0) :
    readTableLine str2double defaultValue s fd
      = some { s with header := fd, linesRead := s.linesRead + 1 } := by
  simp [readTableLine, h]

/-- The loop of `readTable`, entered with `lineNo` at zero, changes the header
and the count of lines read, and nothing else. -/
theorem foldlM_readTableLine_zero (str2double : String → Option Rat) (defaultValue : Rat)
    (input : List (List String)) (s : ReadState) (h : s.lineNo = 0) :
    ∃ hd, input.foldlM (readTableLine str2double defaultValue) s
      = some { s with header := hd, linesRead := s.linesRead + input.length } := by
  induction input generalizing s with
  | nil => exact ⟨s.header, by simp⟩
  | cons fd rest ih =>
    obtain ⟨hd, hrest⟩ := ih { s with header := fd, linesRead := s.linesRead + 1 } h
    refine ⟨hd, ?_⟩
    simp [List.foldlM_cons, readTableLine_zero _ _ s fd h, hrest, Nat.add_assoc, Nat.add_comm 1]

/-- On a usable matrix `readTable` takes every line of the input as the header:
it returns 0 and hands back its arguments as they were. -/
theorem readTable_usable (str2double : String → Option Rat) (input : List (List String))
    (d : Matrix) (rowName colName : OrderedMap) (u : String) (defaultValue : Rat)
    (hr : d.rows ≠ 0) (hc : d.cols ≠ 0) :
    readTable str2double input (some d) rowName colName (some u) defaultValue
      = some ⟨0, some d, rowName, colName, some u, [], input.length⟩ := by
  obtain ⟨hd, h⟩ := foldlM_readTableLine_zero str2double defaultValue input
    ⟨d, rowName, colName, [], 0, -1, 0, [], 0⟩ rfl
  simp [readTable, hr, hc, h]

/-- A loop of assignments to the row-label map touches that map only. -/
theorem forLoopAux_rowName (f : Nat → OrderedMap → OrderedMap) (k i : Nat) (s : ReadState) :
    forLoopAux (fun r (s : ReadState) => { s with rowName := f r s.rowName }) k i s
      = { s with rowName := forLoopAux f k i s.rowName } := by
  induction k generalizing i s with
  | zero => simp [forLoopAux]
  | succ k ih => simp [forLoopAux, ih]

/-- With `lineNo` at zero the body of the loop of `readPlinkTable` runs its
header branch and leaves `lineNo` at zero. -/
theorem readPlinkTableLine_zero (str2double : String → Option Rat) (defaultValue : Rat)
    (s : ReadState) (fd : List String) (h : s.lineNo = 0) :
    readPlinkTableLine str2double defaultValue s fd
      = some { s with nCol := fd.length, rowName := plinkHeaderLabels fd s.rowName,
                      linesRead := s.linesRead + 1 } := by
  simp only [readPlinkTableLine, h, if_true, forLoop, plinkHeaderLabels]
  rw [forLoopAux_rowName (fun r m => m.assign (fd.getD r "") ((r : Int) - 1))]

/-- The loop of `readPlinkTable`, entered with `lineNo` at zero, runs the header
branch on every line. -/
theorem foldlM_readPlinkTableLine_zero (str2double : String → Option Rat) (defaultValue : Rat)
    (input : List (List String)) (s : ReadState) (h : s.lineNo = 0) :
    ∃ n, input.foldlM (readPlinkTableLine str2double defaultValue) s
      = some { s with nCol := n, rowName := input.foldl (fun m fd => plinkHeaderLabels fd m) s.rowName,
                      linesRead := s.linesRead + input.length } := by
  induction input generalizing s with
  | nil => exact ⟨s.nCol, by simp⟩
  | cons fd rest ih =>
    obtain ⟨n, hrest⟩ := ih (ReadState.mk s.data (plinkHeaderLabels fd s.rowName) s.colName
      s.header s.lineNo fd.length s.invalidConversion s.stderr (s.linesRead + 1)) h
    refine ⟨n, ?_⟩
    simp [List.foldlM_cons, readPlinkTableLine_zero _ _ s fd h, hrest, Nat.add_assoc,
      Nat.add_comm 1]

/-- On a usable matrix `readPlinkTable` takes every line of the input as the
header: it returns 0 and changes the row-label map only. -/
theorem readPlinkTable_usable (str2double : String → Option Rat) (input : List (List String))
    (d : Matrix) (rowName colName : OrderedMap) (defaultValue : Rat)
    (hr : d.rows ≠ 0) (hc : d.cols ≠ 0) :
    readPlinkTable str2double input (some d) rowName colName defaultValue
      = some ⟨0, some d, input.foldl (fun m fd => plinkHeaderLabels fd m) rowName, colName, none,
          [], input.length⟩ := by
  obtain ⟨n, h⟩ := foldlM_readPlinkTableLine_zero str2double defaultValue input
    ⟨d, rowName, colName, [], 0, -1, 0, [], 0⟩ rfl
  simp [readPlinkTable, hr, hc, h]

/-- The header loop of `readPlinkTable`, started at index `i`, assigns to the
tokens from position `i` on their positions less one. -/
theorem forLoopAux_assign (fd : List String) (k i : Nat) (m : OrderedMap)
    (hk : k = (fd.drop i).length) :
    forLoopAux (fun r (m : OrderedMap) => m.assign (fd.getD r "") ((r : Int) - 1)) k i m
      = assignFrom i (fd.drop i) m := by
  induction k generalizing i m with
  | zero =>
    have hnil : fd.drop i = [] := List.length_eq_zero.mp hk.symm
    simp [forLoopAux, hnil, assignFrom]
  | succ k ih =>
    have hi : i < fd.length := by
      have hlen := List.length_drop i fd
      omega
    have hk1 : k = (fd.drop (i + 1)).length := by
      have h1 := List.length_drop i fd
      have h2 := List.length_drop (i + 1) fd
      omega
    have hcons : fd.drop i = fd.getD i "" :: fd.drop (i + 1) := by
      rw [List.drop_eq_getElem_cons hi]
      simp [List.getD_eq_getElem, hi]
    rw [hcons]
    simp only [forLoopAux, assignFrom]
    exact ih (i + 1) _ hk1

theorem plinkHeaderLabels_eq (fd : List String) (m : OrderedMap) :
    plinkHeaderLabels fd m = assignFrom 2 (fd.drop 2) m := by
  unfold plinkHeaderLabels forLoop
  exact forLoopAux_assign fd _ 2 m (by simp)

theorem foldl_plinkHeaderLabels_eq (input : List (List String)) (m : OrderedMap) :
    input.foldl (fun m fd => plinkHeaderLabels fd m) m = assignLabelsFromSecond input m := by
  unfold assignLabelsFromSecond
  induction input generalizing m with
  | nil => rfl
  | cons fd rest ih => simp [List.foldl_cons, plinkHeaderLabels_eq, ← ih]

/-! ## The table writer: theorems -/

/-- C1, as stated, fails. A one-cell table whose row label holds a NUL, `a`,
NUL, `b`, passes the guards of `writeTable`, and the row label it writes is `a`
alone, not the whole label. -/
theorem writeTable_label_cut_at_nul :
    (0 < (Matrix.mk 1 1 [[1]]).rows ∧ 0 < (Matrix.mk 1 1 [[1]]).cols
      ∧ (OrderedMap.mk [("a\x00b", 0)]).size = 1 ∧ (OrderedMap.mk [("M1", 0)]).size = 1)
    ∧ writeTable "out.geno" (some ⟨1, 1, [[1]]⟩) ⟨[("a\x00b", 0)]⟩ ⟨[("M1", 0)]⟩ "MarkerName"
        = ⟨some ⟨"out.geno", "MarkerName\t\"M1\"\na\t1\n"⟩, []⟩
    ∧ writeTable "out.geno" (some ⟨1, 1, [[1]]⟩) ⟨[("a\x00b", 0)]⟩ ⟨[("M1", 0)]⟩ "MarkerName"
        ≠ ⟨some ⟨"out.geno", "MarkerName\t\"M1\"\na\x00b\t1\n"⟩, []⟩ := by
  decide

/-- C1, amended. Given a non-null matrix with `rows > 0` and `cols > 0` and
label maps whose sizes are `rows` and `cols`, `writeTable` opens the file and
writes exactly this text: the upper-left name, a tab and the quoted label per
column, a newline, then per row the unquoted row label, a tab and the decimal
integer of the cell per column, and a newline, each label being written up to
its first NUL. A label that holds no NUL is written whole. In particular the
table `[[1,2],[3,4]]` with rows `S1,S2`, columns `M1,M2` and upper-left name
`MarkerName` gives the text of the worked example. -/
theorem writeTable_text_labels_to_nul :
    (∀ (fn : String) (d : Matrix) (rowName colName : OrderedMap) (upperLeftName : String),
      0 < d.rows → 0 < d.cols → rowName.size = d.rows → colName.size = d.cols →
      writeTable fn (some d) rowName colName upperLeftName
        = ⟨some ⟨fn,
            upperLeftName
              ++ concatAll ((List.range d.cols).map
                  (fun c => "\t\"" ++ cStr (colName.keyAt c) ++ "\""))
              ++ "\n"
              ++ concatAll ((List.range d.rows).map (fun r =>
                  cStr (rowName.keyAt r)
                    ++ concatAll ((List.range d.cols).map
                        (fun c => "\t" ++ toString (castInt (d.get r c))))
                    ++ "\n"))⟩, []⟩)
    ∧ (∀ label : String, '\x00' ∉ label.data → cStr label = label)
    ∧ writeTable "out.geno" (some exampleMatrix) exampleRows exampleCols "MarkerName"
        = ⟨some ⟨"out.geno", "MarkerName\t\"M1\"\t\"M2\"\nS1\t1\t2\nS2\t3\t4\n"⟩, []⟩ :=
  ⟨writeTable_ok, cStr_of_no_nul, by decide⟩

/-- Witness of C1, amended: the general statement applied to the worked
example, whose text is the one quoted in the specification. -/
theorem writeTable_text_labels_to_nul_witness :
    (0 < exampleMatrix.rows ∧ 0 < exampleMatrix.cols ∧ exampleRows.size = exampleMatrix.rows
      ∧ exampleCols.size = exampleMatrix.cols)
    ∧ writeTable "out.geno" (some exampleMatrix) exampleRows exampleCols "MarkerName"
        = ⟨some ⟨"out.geno", specTableText exampleMatrix exampleRows exampleCols "MarkerName"⟩,
            []⟩
    ∧ specTableText exampleMatrix exampleRows exampleCols "MarkerName"
        = "MarkerName\t\"M1\"\t\"M2\"\nS1\t1\t2\nS2\t3\t4\n" :=
  ⟨by decide, writeTable_text_labels_to_nul.1 "out.geno" exampleMatrix exampleRows exampleCols
    "MarkerName" (by decide) (by decide) (by decide) (by decide), by decide⟩

/-- C3. Given a non-null matrix with `rows > 0` and `cols > 0`, when the size of
the row-label map differs from `rows` or the size of the column-label map
differs from `cols` (or both), `writeTable` opens no file and sends exactly one
message to the diagnostic channel. -/
theorem writeTable_size_mismatch (fn : String) (d : Matrix) (rowName colName : OrderedMap)
    (upperLeftName : String) (hr : 0 < d.rows) (hc : 0 < d.cols)
    (h : rowName.size ≠ d.rows ∨ colName.size ≠ d.cols) :
    (writeTable fn (some d) rowName colName upperLeftName).file = none
      ∧ (writeTable fn (some d) rowName colName upperLeftName).stderr.length = 1 := by
  have hr0 : d.rows ≠ 0 := Nat.pos_iff_ne_zero.mp hr
  have hc0 : d.cols ≠ 0 := Nat.pos_iff_ne_zero.mp hc
  by_cases h1 : rowName.size = d.rows
  · have h2 : colName.size ≠ d.cols := h.resolve_left (fun hn => hn h1)
    simp [writeTable, hr0, hc0, h1, h2]
  · simp [writeTable, hr0, hc0, h1]

/-- Witness of C3: both label maps are empty against the two-by-two example. -/
theorem writeTable_size_mismatch_witness :
    (0 < exampleMatrix.rows ∧ 0 < exampleMatrix.cols
      ∧ OrderedMap.empty.size ≠ exampleMatrix.rows ∧ OrderedMap.empty.size ≠ exampleMatrix.cols)
    ∧ (writeTable "out.geno" (some exampleMatrix) .empty .empty "MarkerName").file = none
    ∧ (writeTable "out.geno" (some exampleMatrix) .empty .empty "MarkerName").stderr.length = 1 :=
  ⟨by decide, writeTable_size_mismatch "out.geno" exampleMatrix .empty .empty "MarkerName"
    (by decide) (by decide) (Or.inl (by decide))⟩

/-- C4. When the matrix is null, or has zero rows, or has zero columns,
`writeTable` does nothing, whatever the label maps and the upper-left name:
it opens no file and sends nothing to the diagnostic channel. -/
theorem writeTable_noop (fn : String) (data : Option Matrix) (rowName colName : OrderedMap)
    (upperLeftName : String)
    (h : data = none ∨ ∃ d, data = some d ∧ (d.rows = 0 ∨ d.cols = 0)) :
    writeTable fn data rowName colName upperLeftName = ⟨none, []⟩ := by
  rcases h with rfl | ⟨d, rfl, hd⟩
  · rfl
  · simp [writeTable, hd]

/-- Witness of C4: a matrix with zero rows and matching label maps. -/
theorem writeTable_noop_witness :
    (Matrix.mk 0 2 []).rows = 0
    ∧ writeTable "out.geno" (some ⟨0, 2, []⟩) .empty exampleCols "MarkerName" = ⟨none, []⟩ :=
  ⟨rfl, writeTable_noop "out.geno" (some ⟨0, 2, []⟩) .empty exampleCols "MarkerName"
    (Or.inr ⟨⟨0, 2, []⟩, rfl, Or.inl rfl⟩)⟩

/-! ## The table readers: theorems -/

/-- C5. When the output matrix is null, or has zero rows, or has zero columns,
both readers return -1, take no line from the input, and leave the matrix and
both label maps as they were, whatever the input. -/
theorem readers_reject_unusable_matrix (str2double : String → Option Rat)
    (input : List (List String)) (data : Option Matrix) (rowName colName : OrderedMap)
    (upperLeftName : Option String) (defaultValue : Rat)
    (h : data = none ∨ ∃ d, data = some d ∧ (d.rows = 0 ∨ d.cols = 0)) :
    readTable str2double input data rowName colName upperLeftName defaultValue
        = some ⟨-1, data, rowName, colName, upperLeftName, [], 0⟩
    ∧ readPlinkTable str2double input data rowName colName defaultValue
        = some ⟨-1, data, rowName, colName, none, [], 0⟩ := by
  rcases h with rfl | ⟨d, rfl, hd⟩
  · constructor
    · cases upperLeftName <;> rfl
    · rfl
  · constructor
    · cases upperLeftName <;> simp [readTable, hd]
    · simp [readPlinkTable, hd]

/-- Witness of C5: a matrix with zero columns and a two-line input. -/
theorem readers_reject_unusable_matrix_witness :
    (Matrix.mk 3 0 [[], [], []]).cols = 0
    ∧ readTable str2doubleInt [["ID", "A"], ["S1", "1"]] (some ⟨3, 0, [[], [], []]⟩)
          exampleRows exampleCols (some "ID") (-9)
        = some ⟨-1, some ⟨3, 0, [[], [], []]⟩, exampleRows, exampleCols, some "ID", [], 0⟩
    ∧ readPlinkTable str2doubleInt [["ID", "A"], ["S1", "1"]] (some ⟨3, 0, [[], [], []]⟩)
          exampleRows exampleCols (-9)
        = some ⟨-1, some ⟨3, 0, [[], [], []]⟩, exampleRows, exampleCols, none, [], 0⟩ :=
  ⟨rfl, readers_reject_unusable_matrix str2doubleInt [["ID", "A"], ["S1", "1"]]
    (some ⟨3, 0, [[], [], []]⟩) exampleRows exampleCols (some "ID") (-9)
    (Or.inr ⟨⟨3, 0, [[], [], []]⟩, rfl, Or.inr rfl⟩)⟩

/-- C2, on the code. The table of the worked example is written by
`writeTable`; whatever way the text is cut into lines and tokens, `readTable`
reading it into a fresh one-by-one matrix with empty label maps returns 0 and
leaves that matrix and both maps as they were: cell (0,0) holds 0 where 1 was
written, and neither `S1`, `S2` nor `M1`, `M2` is a label. -/
theorem readTable_after_writeTable_keeps_target (tokenize : String → List (List String))
    (str2double : String → Option Rat) (defaultValue : Rat) :
    ∃ text,
      writeTable "t.geno" (some exampleMatrix) exampleRows exampleCols "MarkerName"
        = ⟨some ⟨"t.geno", text⟩, []⟩
      ∧ castInt (exampleMatrix.get 0 0) = 1
      ∧ readTable str2double (tokenize text) (some freshMatrix) .empty .empty (some "")
          defaultValue
        = some ⟨0, some freshMatrix, .empty, .empty, some "", [], (tokenize text).length⟩
      ∧ castInt (freshMatrix.get 0 0) = 0 :=
  ⟨_, writeTable_ok "t.geno" exampleMatrix exampleRows exampleCols "MarkerName"
      (by decide) (by decide) (by decide) (by decide), by decide,
    readTable_usable str2double _ freshMatrix .empty .empty "" defaultValue
      (by decide) (by decide), by decide⟩

/-- C6, on the code. On the header `ID A B` followed by the data line
`S1 1 bad`, whatever the conversion and the default value, `readTable` returns
0 (not 1) and leaves the matrix as it was: no cell receives the default. -/
theorem readTable_bad_token_uncounted (str2double : String → Option Rat) (defaultValue : Rat) :
    readTable str2double [["ID", "A", "B"], ["S1", "1", "bad"]] (some freshMatrix)
        .empty .empty (some "") defaultValue
      = some ⟨0, some freshMatrix, .empty, .empty, some "", [], 2⟩ :=
  readTable_usable str2double _ freshMatrix .empty .empty "" defaultValue (by decide) (by decide)

/-- C7, on the code. On two lines of three tokens each, `ID A B` and `S1 1 2`,
`readTable` leaves the column-label map empty: neither `A` nor `B` becomes a
column label. -/
theorem readTable_equal_length_no_labels (str2double : String → Option Rat)
    (defaultValue : Rat) :
    ∃ res, readTable str2double [["ID", "A", "B"], ["S1", "1", "2"]] (some freshMatrix)
        .empty .empty (some "") defaultValue = some res
      ∧ res.colName = .empty ∧ res.colName.find "A" = false ∧ res.colName.find "B" = false :=
  ⟨_, readTable_usable str2double _ freshMatrix .empty .empty "" defaultValue
    (by decide) (by decide), rfl, by decide, by decide⟩

/-- C8, on the code. On a header of two tokens, `A B`, followed by a line of
three, `S1 1 2`, `readTable` leaves the column-label map empty and the matrix
with its one column, not two. -/
theorem readTable_longer_line_no_labels (str2double : String → Option Rat)
    (defaultValue : Rat) :
    ∃ res, readTable str2double [["A", "B"], ["S1", "1", "2"]] (some freshMatrix)
        .empty .empty (some "") defaultValue = some res
      ∧ res.colName = .empty ∧ res.data = some freshMatrix ∧ freshMatrix.cols = 1 :=
  ⟨_, readTable_usable str2double _ freshMatrix .empty .empty "" defaultValue
    (by decide) (by decide), rfl, rfl, rfl⟩

/-- C9, on the code. On the lines `ID A`, `S1 1`, `S2 2 3`, `S3 4`, the last of
which is well formed and follows a line with one token too many, `readTable`
leaves the row-label map empty and the matrix as it was: `S3` gets no row. -/
theorem readTable_later_line_unprocessed (str2double : String → Option Rat)
    (defaultValue : Rat) :
    ∃ res, readTable str2double [["ID", "A"], ["S1", "1"], ["S2", "2", "3"], ["S3", "4"]]
        (some freshMatrix) .empty .empty (some "") defaultValue = some res
      ∧ res.rowName = .empty ∧ res.rowName.find "S3" = false ∧ res.data = some freshMatrix
      ∧ res.stderr = [] :=
  ⟨_, readTable_usable str2double _ freshMatrix .empty .empty "" defaultValue
    (by decide) (by decide), rfl, by decide, rfl, rfl⟩

/-- C10, on the code. On the header `FID IID M1 M2` followed by the data line
`F1 S1 9 bad`, `readPlinkTable` returns 0, leaves the column-label map empty and
the matrix as it was, and puts into the row-label map the tokens at positions
2 and 3 of both lines (`M1`, `M2`, `9`, `bad`) and not the label `S1`. -/
theorem readPlinkTable_labels_in_rowName (str2double : String → Option Rat)
    (defaultValue : Rat) :
    readPlinkTable str2double [["FID", "IID", "M1", "M2"], ["F1", "S1", "9", "bad"]]
        (some freshMatrix) .empty .empty defaultValue
      = some ⟨0, some freshMatrix, ⟨[("M1", 1), ("M2", 2), ("9", 1), ("bad", 2)]⟩, .empty, none,
          [], 2⟩ := by
  rw [readPlinkTable_usable str2double _ freshMatrix .empty .empty defaultValue
    (by decide) (by decide)]
  decide

/-- C11, on the code. On the header `FID IID M1 M2` and the data line
`F1 S1 9 bad`, read with the default value -9 into a one-by-two matrix of
zeros, `readPlinkTable` returns 0 (not 1), leaves matrix row 0 at `[0, 0]` (not
`[9, -9]`), maps neither `M1` nor `M2` in the column-label map and does not map
`S1` in the row-label map, whatever the conversion. -/
theorem readPlinkTable_example_unread (str2double : String → Option Rat) :
    ∃ res, readPlinkTable str2double [["FID", "IID", "M1", "M2"], ["F1", "S1", "9", "bad"]]
        (some ⟨1, 2, [[0, 0]]⟩) .empty .empty (-9) = some res
      ∧ res.ret = 0 ∧ res.data = some ⟨1, 2, [[0, 0]]⟩
      ∧ res.colName.value? "M1" = none ∧ res.colName.value? "M2" = none
      ∧ res.rowName.value? "S1" = none ∧ res.rowName.value? "M1" = some 1 :=
  ⟨_, readPlinkTable_usable str2double _ ⟨1, 2, [[0, 0]]⟩ .empty .empty (-9)
    (by decide) (by decide), rfl, rfl, by decide, by decide, by decide, by decide⟩

/-- C12, on the code. On the header `FID IID M1` and two data lines that both
carry the row label `S1`, `F1 S1 1` and `F2 S1 2`, `readPlinkTable` sends no
message to the diagnostic channel and does not map `S1` in the row-label map
(the later line would have row index 1). -/
theorem readPlinkTable_duplicate_unreported (str2double : String → Option Rat)
    (defaultValue : Rat) :
    ∃ res, readPlinkTable str2double [["FID", "IID", "M1"], ["F1", "S1", "1"], ["F2", "S1", "2"]]
        (some freshMatrix) .empty .empty defaultValue = some res
      ∧ res.stderr = [] ∧ res.rowName.value? "S1" = none ∧ res.rowName.find "S1" = false :=
  ⟨_, readPlinkTable_usable str2double _ freshMatrix .empty .empty defaultValue
    (by decide) (by decide), rfl, by decide, by decide⟩

/-- C13, as stated, fails. With an empty column-label map, a matrix of two rows
and no column and two row labels, `writeTable` opens no file, so no header line
with the placeholder `"."` is written; the same holds against the two-by-two
matrix of the worked example. -/
theorem writeTable_empty_columns_no_placeholder :
    OrderedMap.empty.size = 0
    ∧ writeTable "out.geno" (some ⟨2, 0, [[], []]⟩) exampleRows .empty "MarkerName" = ⟨none, []⟩
    ∧ (¬ ∃ rest, (writeTable "out.geno" (some ⟨2, 0, [[], []]⟩) exampleRows .empty
          "MarkerName").file = some ⟨"out.geno", "MarkerName\t\".\"\n" ++ rest⟩)
    ∧ (writeTable "out.geno" (some exampleMatrix) exampleRows .empty "MarkerName").file
        = none := by
  refine ⟨rfl, by decide, ?_, by decide⟩
  rintro ⟨rest, h⟩
  have hnone : (writeTable "out.geno" (some ⟨2, 0, [[], []]⟩) exampleRows .empty
      "MarkerName").file = none := by decide
  rw [hnone] at h
  exact Option.noConfusion h

/-- C13, amended. Called with an empty column-label map, `writeTable` opens no
file and so writes no header line, whatever the matrix, the row-label map and
the upper-left name. -/
theorem writeTable_empty_columns_no_file (fn : String) (data : Option Matrix)
    (rowName colName : OrderedMap) (upperLeftName : String) (h : colName.size = 0) :
    (writeTable fn data rowName colName upperLeftName).file = none := by
  cases data with
  | none => rfl
  | some d =>
    by_cases h0 : d.rows = 0 ∨ d.cols = 0
    · simp [writeTable, h0]
    · by_cases h1 : rowName.size = d.rows
      · have h2 : ¬ colName.size = d.cols := fun hc => h0 (Or.inr (hc ▸ h))
        simp [writeTable, h0, h1, h2]
      · simp [writeTable, h0, h1]

/-- Witness of C13, amended: the empty column-label map against the matrix of
the worked example. -/
theorem writeTable_empty_columns_no_file_witness :
    OrderedMap.empty.size = 0
    ∧ (writeTable "out.geno" (some exampleMatrix) exampleRows .empty "MarkerName").file
        = none :=
  ⟨rfl, writeTable_empty_columns_no_file "out.geno" (some exampleMatrix) exampleRows .empty
    "MarkerName" rfl⟩

/-- C15. For every prefix, `writeRawData` makes exactly four calls of
`writeTable`, in this order: to the prefix followed by `.geno`, `.cgeno`, `.cov`
and `.pheno`, with the genotype, collapsed-genotype, covariate and phenotype
matrices; an empty prefix stands for `rvtest.raw`. -/
theorem writeRawData_calls (self : VCFDataObject) (pre : String) :
    (writeRawData self pre).map (fun c => (c.fn, c.data))
      = [ ((if pre = "" then "rvtest.raw" else pre) ++ ".geno", self.genotype),
          ((if pre = "" then "rvtest.raw" else pre) ++ ".cgeno", self.collapsedGenotype),
          ((if pre = "" then "rvtest.raw" else pre) ++ ".cov", self.covariate),
          ((if pre = "" then "rvtest.raw" else pre) ++ ".pheno", self.phenotype) ]
    ∧ (writeRawData self "").map (fun c => c.fn)
      = ["rvtest.raw.geno", "rvtest.raw.cgeno", "rvtest.raw.cov", "rvtest.raw.pheno"] := by
  constructor
  · simp [writeRawData, writeGenotype, writeCollapsedGenotype, writeCovariate, writePhenotype]
  · simp [writeRawData, writeGenotype, writeCollapsedGenotype, writeCovariate, writePhenotype]

/-- C16, on the code. `writeGenotype` hands `writeTable` the marker map as row
labels, the people map as column labels and `MarkerName` as upper-left name.
On two people and three markers with a people-by-marker genotype matrix it
writes no file and reports a row mismatch; on two people and two markers the
header is `MarkerName` followed by the people and each row is a marker. -/
theorem writeGenotype_marker_rows :
    (writeGenotype exampleData "out.geno").effect = ⟨none, ["Row number does not match!"]⟩
    ∧ (writeGenotype exampleSquareData "out.geno").effect
        = ⟨some ⟨"out.geno", "MarkerName\t\"P1\"\t\"P2\"\nM1\t0\t1\nM2\t2\t1\n"⟩, []⟩
    ∧ (writeGenotype exampleData "out.geno").upperLeftName = "MarkerName"
    ∧ (writeGenotype exampleData "out.geno").rowName = exampleData.marker2Idx
    ∧ (writeGenotype exampleData "out.geno").colName = exampleData.people2Idx :=
  ⟨by decide, by decide, rfl, rfl, rfl⟩

/-- C17, on the code. On the header `ID A` and the two data lines `S1 1` and
`S2 2`, read into a one-by-one matrix, `readTable` leaves the matrix with one
row (not two) and maps neither `S1` nor `S2` in the row-label map. -/
theorem readTable_rows_not_counted (str2double : String → Option Rat) (defaultValue : Rat) :
    ∃ res, readTable str2double [["ID", "A"], ["S1", "1"], ["S2", "2"]]
        (some freshMatrix) .empty .empty (some "") defaultValue = some res
      ∧ res.data = some freshMatrix ∧ freshMatrix.rows = 1
      ∧ res.rowName.value? "S1" = none ∧ res.rowName.value? "S2" = none
      ∧ res.rowName.size = 0 :=
  ⟨_, readTable_usable str2double _ freshMatrix .empty .empty "" defaultValue
    (by decide) (by decide), rfl, rfl, by decide, by decide, by decide⟩

/-- C18. For every input and every call of `readTable` with a non-null matrix
that has `rows > 0` and `cols > 0` and a non-null `upperLeftName`, the call
reads every line, returns 0 and leaves the matrix, both label maps and
`upperLeftName` as they were; the loop ends with `lineNo` still at 0. -/
theorem readTable_returns_zero_unchanged (str2double : String → Option Rat)
    (input : List (List String)) (d : Matrix) (rowName colName : OrderedMap) (u : String)
    (defaultValue : Rat) (hr : 0 < d.rows) (hc : 0 < d.cols) :
    readTable str2double input (some d) rowName colName (some u) defaultValue
        = some ⟨0, some d, rowName, colName, some u, [], input.length⟩
    ∧ ∃ s, input.foldlM (readTableLine str2double defaultValue)
          ⟨d, rowName, colName, [], 0, -1, 0, [], 0⟩ = some s ∧ s.lineNo = 0 := by
  refine ⟨readTable_usable str2double input d rowName colName u defaultValue
    (Nat.pos_iff_ne_zero.mp hr) (Nat.pos_iff_ne_zero.mp hc), ?_⟩
  obtain ⟨hd, h⟩ := foldlM_readTableLine_zero str2double defaultValue input
    ⟨d, rowName, colName, [], 0, -1, 0, [], 0⟩ rfl
  exact ⟨_, h, rfl⟩

/-- Witness of C18: a well-formed three-line table read into the matrix and the
label maps of the worked example. -/
theorem readTable_returns_zero_unchanged_witness :
    (0 < exampleMatrix.rows ∧ 0 < exampleMatrix.cols)
    ∧ readTable str2doubleInt [["ID", "A", "B"], ["S7", "5", "6"], ["S8", "7", "x"]]
          (some exampleMatrix) exampleRows exampleCols (some "ID") (-9)
        = some ⟨0, some exampleMatrix, exampleRows, exampleCols, some "ID", [], 3⟩ :=
  ⟨by decide, (readTable_returns_zero_unchanged str2doubleInt
    [["ID", "A", "B"], ["S7", "5", "6"], ["S8", "7", "x"]] exampleMatrix exampleRows
    exampleCols "ID" (-9) (by decide) (by decide)).1⟩

/-- C19. For every input and every call of `readPlinkTable` with a non-null
matrix that has `rows > 0` and `cols > 0`, the call returns 0 and leaves the
matrix and the column-label map as they were; the row-label map ends as the
original one after, for each line in order and each token at a position
`r ≥ 2` of that line, the token has been assigned `r - 1`. -/
theorem readPlinkTable_only_rowName (str2double : String → Option Rat)
    (input : List (List String)) (d : Matrix) (rowName colName : OrderedMap)
    (defaultValue : Rat) (hr : 0 < d.rows) (hc : 0 < d.cols) :
    readPlinkTable str2double input (some d) rowName colName defaultValue
      = some ⟨0, some d, assignLabelsFromSecond input rowName, colName, none, [],
          input.length⟩ := by
  rw [readPlinkTable_usable str2double input d rowName colName defaultValue
    (Nat.pos_iff_ne_zero.mp hr) (Nat.pos_iff_ne_zero.mp hc), foldl_plinkHeaderLabels_eq]

/-- Witness of C19: a header and a data line read into the matrix and the label
maps of the worked example; `S1`, already a row label, is not reassigned. -/
theorem readPlinkTable_only_rowName_witness :
    (0 < exampleMatrix.rows ∧ 0 < exampleMatrix.cols)
    ∧ readPlinkTable str2doubleInt [["FID", "IID", "M1", "M2"], ["F1", "S1", "9", "bad"]]
          (some exampleMatrix) exampleRows exampleCols (-9)
        = some ⟨0, some exampleMatrix,
            ⟨[("S1", 0), ("S2", 1), ("M1", 1), ("M2", 2), ("9", 1), ("bad", 2)]⟩,
            exampleCols, none, [], 2⟩ :=
  ⟨by decide, (readPlinkTable_only_rowName str2doubleInt
    [["FID", "IID", "M1", "M2"], ["F1", "S1", "9", "bad"]] exampleMatrix exampleRows
    exampleCols (-9) (by decide) (by decide)).trans (by decide)⟩

/-! ## Lemmas on the cast and on the shape of the text -/

/-- Within the range of an `int` the cast is the truncation toward zero. -/
theorem castInt_eq_truncTowardZero (v : Rat) (h : inIntRange v) :
    castInt v = truncTowardZero v := by
  obtain ⟨hlo, hhi⟩ := h
  unfold castInt truncTowardZero
  by_cases hv : 0 ≤ v
  · have hnum : 0 ≤ v.num := Rat.num_nonneg.mpr hv
    have hden : (0 : Int) ≤ (v.den : Int) := Int.ofNat_nonneg _
    have ht : Int.tdiv v.num v.den = ⌊v⌋ := by
      rw [Int.tdiv_eq_ediv hnum hden, Rat.floor_def]
    have h0 : (0 : Int) ≤ ⌊v⌋ := Int.floor_nonneg.mpr hv
    have h1 : ⌊v⌋ ≤ 2147483647 := by
      have : ((⌊v⌋ : Int) : Rat) ≤ 2147483647 := le_trans (Int.floor_le v) hhi
      exact_mod_cast this
    simp only [ht, hv, if_true]
    rw [if_pos ⟨by omega, h1⟩]
  · have hneg : v < 0 := lt_of_not_ge hv
    have hnum : 0 ≤ -v.num := by
      have := Rat.num_neg.mpr hneg
      omega
    have hden : (0 : Int) ≤ (v.den : Int) := Int.ofNat_nonneg _
    have ht : Int.tdiv v.num v.den = ⌈v⌉ := by
      have h1 : Int.tdiv v.num v.den = -(Int.tdiv (-v.num) v.den) := by
        rw [Int.neg_tdiv, neg_neg]
      have h2 : ⌈v⌉ = -⌊-v⌋ := by rw [Int.floor_neg, neg_neg]
      rw [h1, h2, Int.tdiv_eq_ediv hnum hden, Rat.floor_def]
      simp
    have h0 : ⌈v⌉ ≤ 0 := Int.ceil_le.mpr (by exact_mod_cast le_of_lt hneg)
    have h1 : -2147483648 ≤ ⌈v⌉ := by
      have : ((-2147483648 : Int) : Rat) ≤ ((⌈v⌉ : Int) : Rat) := by
        push_cast
        exact le_trans hlo (Int.le_ceil v)
      exact_mod_cast this
    simp only [ht, hv, if_false]
    rw [if_pos ⟨h1, by omega⟩]

/-- Within the range of an `int` the cast of an integer value is that integer. -/
theorem castInt_intCast (n : Int) (h : inIntRange (n : Rat)) : castInt (n : Rat) = n := by
  obtain ⟨hlo, hhi⟩ := h
  have h1 : -2147483648 ≤ n := by exact_mod_cast hlo
  have h2 : n ≤ 2147483647 := by exact_mod_cast hhi
  simp [castInt, h1, h2]

/-- A decimal digit is neither a tab nor a newline. -/
theorem digitChar_plain (m : Nat) (h : m < 10) :
    Nat.digitChar m ≠ '\t' ∧ Nat.digitChar m ≠ '\n' := by
  interval_cases m <;> decide

theorem toDigitsCore_plain (fuel n : Nat) (ds : List Char)
    (hds : ∀ c ∈ ds, c ≠ '\t' ∧ c ≠ '\n') :
    ∀ c ∈ Nat.toDigitsCore 10 fuel n ds, c ≠ '\t' ∧ c ≠ '\n' := by
  induction fuel generalizing n ds with
  | zero => simpa [Nat.toDigitsCore] using hds
  | succ fuel ih =>
    have hcons : ∀ c ∈ Nat.digitChar (n % 10) :: ds, c ≠ '\t' ∧ c ≠ '\n' := by
      intro c hc
      rcases List.mem_cons.mp hc with rfl | hc
      · exact digitChar_plain _ (Nat.mod_lt _ (by decide))
      · exact hds c hc
    unfold Nat.toDigitsCore
    by_cases h0 : n / 10 = 0
    · simpa [h0] using hcons
    · simpa [h0] using ih (n / 10) _ hcons

theorem nat_repr_plain (n : Nat) : ∀ c ∈ (toString n).data, c ≠ '\t' ∧ c ≠ '\n' := by
  show ∀ c ∈ (Nat.repr n).data, _
  unfold Nat.repr Nat.toDigits
  exact toDigitsCore_plain _ _ [] (by simp)

theorem int_toString_plain (n : Int) : noTabNewline (toString n) := by
  have key : ∀ c ∈ (toString n).data, c ≠ '\t' ∧ c ≠ '\n' := by
    cases n with
    | ofNat m => exact nat_repr_plain m
    | negSucc m =>
      show ∀ c ∈ ("-" ++ toString (Nat.succ m)).data, _
      intro c hc
      rw [String.data_append] at hc
      rcases List.mem_append.mp hc with hc | hc
      · have : c = '-' := by simpa using hc
        subst this
        decide
      · exact nat_repr_plain _ c hc
  exact ⟨fun h => (key _ h).1 rfl, fun h => (key _ h).2 rfl⟩

theorem keyAt_plain (m : OrderedMap) (h : ∀ e ∈ m.entries, noTabNewline e.1) (i : Nat) :
    noTabNewline (m.keyAt i) := by
  unfold OrderedMap.keyAt
  by_cases hi : i < m.entries.length
  · rw [List.getD_eq_getElem _ _ hi]
    exact h _ (List.getElem_mem hi)
  · rw [List.getD_eq_default _ _ (Nat.le_of_not_lt hi)]
    decide

theorem cStr_plain (s : String) (h : noTabNewline s) : noTabNewline (cStr s) :=
  ⟨fun hm => h.1 (mem_of_mem_cStr s _ hm), fun hm => h.2 (mem_of_mem_cStr s _ hm)⟩

theorem count_tab_concatAll (l : List String) (h : ∀ s ∈ l, s.data.count '\t' = 1) :
    (concatAll l).data.count '\t' = l.length := by
  induction l with
  | nil => rfl
  | cons s rest ih =>
    have hs := h s (List.mem_cons_self _ _)
    have hrest := ih (fun t ht => h t (List.mem_cons_of_mem _ ht))
    simp only [concatAll, String.data_append, List.count_append, hs, hrest, List.length_cons]
    omega

theorem newline_not_mem_concatAll (l : List String) (h : ∀ s ∈ l, '\n' ∉ s.data) :
    '\n' ∉ (concatAll l).data := by
  induction l with
  | nil => simp [concatAll]
  | cons s rest ih =>
    have hs := h s (List.mem_cons_self _ _)
    have hrest := ih (fun t ht => h t (List.mem_cons_of_mem _ ht))
    simp only [concatAll, String.data_append, List.mem_append, not_or]
    exact ⟨hs, hrest⟩

/-- A line made of a label and `cols` fields, each a tab followed by text free
of tabs and newlines, holds `cols` tabs and no newline. -/
theorem line_shape (label : String) (field : Nat → String) (cols : Nat)
    (hl : noTabNewline label) (hf : ∀ c, noTabNewline (field c)) :
    (label ++ concatAll ((List.range cols).map (fun c => "\t" ++ field c))).data.count '\t' = cols
    ∧ '\n' ∉ (label ++ concatAll ((List.range cols).map (fun c => "\t" ++ field c))).data := by
  have h1 : ∀ s ∈ (List.range cols).map (fun c => "\t" ++ field c), s.data.count '\t' = 1 := by
    intro s hs
    obtain ⟨c, -, rfl⟩ := List.mem_map.mp hs
    have := List.count_eq_zero.mpr (hf c).1
    simp [String.data_append, List.count_append, this]
  have h2 : ∀ s ∈ (List.range cols).map (fun c => "\t" ++ field c), '\n' ∉ s.data := by
    intro s hs
    obtain ⟨c, -, rfl⟩ := List.mem_map.mp hs
    have := (hf c).2
    simp [String.data_append, this]
  constructor
  · rw [String.data_append, List.count_append, List.count_eq_zero.mpr hl.1,
      count_tab_concatAll _ h1]
    simp
  · rw [String.data_append, List.mem_append, not_or]
    exact ⟨hl.2, newline_not_mem_concatAll _ h2⟩

theorem quoted_plain (s : String) (h : noTabNewline s) : noTabNewline ("\"" ++ s ++ "\"") := by
  obtain ⟨h1, h2⟩ := h
  constructor <;> simp [String.data_append, h1, h2]

/-! ## The cast and the shape of the text: theorems -/

/-- C14. Whenever `writeTable` writes, the integer it writes for cell `(r, c)`
is the cast of the stored value, and for every stored value `v` within the
range of an `int` that is `v` truncated toward zero, not rounded: a table whose
cells are all within range is written with every cell truncated; 2.9
(`mkRat 29 10`), -2.9 and 0.5 are written as 2, -2 and 0; an integer-valued
`v` is written as itself. -/
theorem writeTable_truncates :
    (∀ (fn : String) (d : Matrix) (rowName colName : OrderedMap) (upperLeftName : String),
      0 < d.rows → 0 < d.cols → rowName.size = d.rows → colName.size = d.cols →
      writeTable fn (some d) rowName colName upperLeftName
          = ⟨some ⟨fn, intTableText (fun r c => castInt (d.get r c)) d rowName colName
              upperLeftName⟩, []⟩
        ∧ ∀ r, r < d.rows → ∀ c, c < d.cols → inIntRange (d.get r c) →
            castInt (d.get r c) = truncTowardZero (d.get r c))
    ∧ (∀ (fn : String) (d : Matrix) (rowName colName : OrderedMap) (upperLeftName : String),
      0 < d.rows → 0 < d.cols → rowName.size = d.rows → colName.size = d.cols →
      (∀ r, r < d.rows → ∀ c, c < d.cols → inIntRange (d.get r c)) →
      writeTable fn (some d) rowName colName upperLeftName
        = ⟨some ⟨fn, intTableText (fun r c => truncTowardZero (d.get r c)) d rowName colName
            upperLeftName⟩, []⟩)
    ∧ (∀ v : Rat, inIntRange v → castInt v = truncTowardZero v)
    ∧ writeTable "out.cov" (some ⟨1, 3, [[mkRat 29 10, mkRat (-29) 10, mkRat 1 2]]⟩)
          ⟨[("S1", 0)]⟩ ⟨[("A", 0), ("B", 1), ("C", 2)]⟩ "PeopleID"
        = ⟨some ⟨"out.cov", "PeopleID\t\"A\"\t\"B\"\t\"C\"\nS1\t2\t-2\t0\n"⟩, []⟩
    ∧ (∀ n : Int, inIntRange (n : Rat) → castInt (n : Rat) = n) := by
  refine ⟨?_, ?_, castInt_eq_truncTowardZero, by decide, castInt_intCast⟩
  · intro fn d rowName colName upperLeftName hr hc hrow hcol
    refine ⟨?_, fun r _ c _ hv => castInt_eq_truncTowardZero _ hv⟩
    rw [writeTable_ok fn d rowName colName upperLeftName hr hc hrow hcol,
      specTableText_eq_intTableText]
  · intro fn d rowName colName upperLeftName hr hc hrow hcol hall
    rw [writeTable_ok fn d rowName colName upperLeftName hr hc hrow hcol,
      specTableText_eq_intTableText]
    rw [intTableText_congr _ (fun r c => truncTowardZero (d.get r c)) d rowName colName
      upperLeftName (fun r c hr hc => castInt_eq_truncTowardZero _ (hall r hr c hc))]

/-- Witness of C14: a table of two rows whose cells 2.9, -2.9, 0.5 and 2 are
all within range is written with every cell truncated toward zero. -/
theorem writeTable_truncates_witness :
    (0 < (Matrix.mk 2 2 [[mkRat 29 10, mkRat (-29) 10], [mkRat 1 2, 2]]).rows
      ∧ 0 < (Matrix.mk 2 2 [[mkRat 29 10, mkRat (-29) 10], [mkRat 1 2, 2]]).cols
      ∧ exampleRows.size = 2 ∧ exampleCols.size = 2
      ∧ ∀ r, r < 2 → ∀ c, c < 2 →
          inIntRange ((Matrix.mk 2 2 [[mkRat 29 10, mkRat (-29) 10], [mkRat 1 2, 2]]).get r c))
    ∧ writeTable "out.cov" (some ⟨2, 2, [[mkRat 29 10, mkRat (-29) 10], [mkRat 1 2, 2]]⟩)
          exampleRows exampleCols "PeopleID"
        = ⟨some ⟨"out.cov", intTableText
            (fun r c => truncTowardZero
              ((Matrix.mk 2 2 [[mkRat 29 10, mkRat (-29) 10], [mkRat 1 2, 2]]).get r c))
            ⟨2, 2, [[mkRat 29 10, mkRat (-29) 10], [mkRat 1 2, 2]]⟩ exampleRows exampleCols
            "PeopleID"⟩, []⟩
    ∧ writeTable "out.cov" (some ⟨2, 2, [[mkRat 29 10, mkRat (-29) 10], [mkRat 1 2, 2]]⟩)
          exampleRows exampleCols "PeopleID"
        = ⟨some ⟨"out.cov", "PeopleID\t\"M1\"\t\"M2\"\nS1\t2\t-2\nS2\t0\t2\n"⟩, []⟩ :=
  ⟨⟨by decide, by decide, by decide, by decide, by decide⟩,
    writeTable_truncates.2.1 "out.cov"
      ⟨2, 2, [[mkRat 29 10, mkRat (-29) 10], [mkRat 1 2, 2]]⟩ exampleRows exampleCols "PeopleID"
      (by decide) (by decide) (by decide) (by decide) (by decide),
    by decide⟩

/-- C20. Whenever `writeTable` writes (matrix non-null, `rows > 0`, `cols > 0`,
label map sizes matching) and neither the upper-left name nor any label holds a
tab or a newline, the text is `rows + 1` lines, each ended by a newline and
holding no other newline, and each line, the header included, holds exactly
`cols` tabs. -/
theorem writeTable_rectangular (fn : String) (d : Matrix) (rowName colName : OrderedMap)
    (upperLeftName : String) (hr : 0 < d.rows) (hc : 0 < d.cols)
    (hrow : rowName.size = d.rows) (hcol : colName.size = d.cols)
    (hul : noTabNewline upperLeftName)
    (hrl : ∀ e ∈ rowName.entries, noTabNewline e.1)
    (hcl : ∀ e ∈ colName.entries, noTabNewline e.1) :
    ∃ lines : List String,
      writeTable fn (some d) rowName colName upperLeftName
        = ⟨some ⟨fn, concatAll (lines.map (fun l => l ++ "\n"))⟩, []⟩
      ∧ lines.length = d.rows + 1
      ∧ ∀ l ∈ lines, l.data.count '\t' = d.cols ∧ '\n' ∉ l.data := by
  refine ⟨(upperLeftName ++ concatAll ((List.range d.cols).map
      (fun c => "\t" ++ ("\"" ++ cStr (colName.keyAt c) ++ "\""))))
    :: (List.range d.rows).map (fun r => cStr (rowName.keyAt r) ++ concatAll ((List.range d.cols).map
      (fun c => "\t" ++ toString (castInt (d.get r c))))), ?_, by simp, ?_⟩
  · rw [writeTable_ok fn d rowName colName upperLeftName hr hc hrow hcol]
    have e : ∀ x : String, "\t" ++ ("\"" ++ x) = "\t\"" ++ x := fun x => by
      rw [← String.append_assoc]
      rfl
    simp [specTableText, specHeaderLine, specDataLine, concatAll, List.map_map,
      Function.comp_def, String.append_assoc, e]
  · intro l hl
    rcases List.mem_cons.mp hl with rfl | hl
    · exact line_shape upperLeftName (fun c => "\"" ++ cStr (colName.keyAt c) ++ "\"") d.cols hul
        (fun c => quoted_plain _ (cStr_plain _ (keyAt_plain colName hcl c)))
    · obtain ⟨r, -, rfl⟩ := List.mem_map.mp hl
      exact line_shape (cStr (rowName.keyAt r)) (fun c => toString (castInt (d.get r c))) d.cols
        (cStr_plain _ (keyAt_plain rowName hrl r)) (fun c => int_toString_plain _)

/-- Witness of C20: the worked example meets the hypotheses, and its text is
three lines of two tabs each. -/
theorem writeTable_rectangular_witness :
    (0 < exampleMatrix.rows ∧ 0 < exampleMatrix.cols ∧ exampleRows.size = exampleMatrix.rows
      ∧ exampleCols.size = exampleMatrix.cols ∧ noTabNewline "MarkerName"
      ∧ (∀ e ∈ exampleRows.entries, noTabNewline e.1)
      ∧ (∀ e ∈ exampleCols.entries, noTabNewline e.1))
    ∧ ∃ lines : List String,
        writeTable "out.geno" (some exampleMatrix) exampleRows exampleCols "MarkerName"
          = ⟨some ⟨"out.geno", concatAll (lines.map (fun l => l ++ "\n"))⟩, []⟩
        ∧ lines.length = exampleMatrix.rows + 1
        ∧ ∀ l ∈ lines, l.data.count '\t' = exampleMatrix.cols ∧ '\n' ∉ l.data :=
  ⟨by decide, writeTable_rectangular "out.geno" exampleMatrix exampleRows exampleCols
    "MarkerName" (by decide) (by decide) (by decide) (by decide) (by decide) (by decide)
    (by decide)⟩

end VCFData
